import Mathlib

/-!
Verification of the bareboot-initial-metadata build tool: the layout
calculator (`generate_platform_config.py`) and the binary composer
(`initial_metadata.py`).  Python dictionaries indexed by fixed keys are
embedded as association lists, file contents as lists of byte values,
the output file as a byte-addressed memory `Nat → Nat`, and Python's
fallible `int.to_bytes` as an `Option`-returning encoder.
-/

namespace InitialMetadata

/-- Byte order of the target platform (`byteorder` field, "little"/"big"). -/
inductive ByteOrder
  | little
  | big
deriving DecidableEq, Repr

/-- Platform description document with all fields present
(`platform_description/*.yml` as read by `generate_platform_config.py`). -/
structure Platform where
  name : String
  number_of_images : Nat
  bootloader_size : Nat
  max_image_size : Nat
  metadata_label_address : Nat
  pointer_size : Nat
  size_t_size : Nat
  hmac_key_size : Nat
  hmac_signature_size : Nat
  byteorder : ByteOrder
deriving DecidableEq, Repr

/-- Generated layout configuration (`config/*.yml`), the dictionary built by
`generate_config`. -/
structure LayoutConfig where
  name : String
  image_begin_addresses : List Nat
  size_of_metadata : Nat
  hmac_key_offset : Nat
  first_image_metadata_offset : Nat
  first_crc_offset : Nat
  first_length_offset : Nat
  first_completion_status_offset : Nat
  first_hmac_offset : Nat
  bootloader_size : Nat
  max_image_size : Nat
  byteorder : ByteOrder
deriving DecidableEq, Repr

/-- Width entry of a size template: either a literal byte count or the name
of a platform field holding the byte count. -/
inductive SizeSpec
  | lit (n : Nat)
  | key (s : String)
deriving DecidableEq, Repr

/-- Lookup of the platform fields that the size templates refer to
(`platform[value]` in `generate_size_of_metadata` /
`generate_global_metadata_sizes`). -/
def Platform.lookupSize (p : Platform) (s : String) : Nat :=
  if s = "pointer_size" then p.pointer_size
  else if s = "hmac_signature_size" then p.hmac_signature_size
  else if s = "size_t_size" then p.size_t_size
  else if s = "hmac_key_size" then p.hmac_key_size
  else 0

/-- `IMAGE_METADATA_SIZES_TEMPLATE` of `generate_platform_config.py`. -/
def IMAGE_METADATA_SIZES_TEMPLATE : List (String × SizeSpec) :=
  [("version", .lit 4),
   ("crc", .lit 4),
   ("bootcounter", .lit 4),
   ("lastSuccessStatus", .lit 4),
   ("imageBegin", .key "pointer_size"),
   ("length", .lit 4),
   ("completionStatus", .lit 2),
   ("protectionStatus", .lit 2),
   ("hmacSignature", .key "hmac_signature_size")]

/-- `GLOBAL_METADATA_SIZE_TEMPLATE` of `generate_platform_config.py`
(note the source spells the second key "prefferedImage"). -/
def GLOBAL_METADATA_SIZE_TEMPLATE : List (String × SizeSpec) :=
  [("globalBootCounter", .lit 4),
   ("prefferedImage", .key "size_t_size"),
   ("currentImage", .key "size_t_size"),
   ("hmacKey1", .key "hmac_key_size"),
   ("hmacKey2", .key "hmac_key_size"),
   ("hmacKey3", .key "hmac_key_size"),
   ("imageMetadata", .lit 0)]

/-- Resolve a size template against a platform, as the loops of
`generate_size_of_metadata` and `generate_global_metadata_sizes` do. -/
def resolveSizes (p : Platform) (t : List (String × SizeSpec)) : List (String × Nat) :=
  t.map fun kv => (kv.1, match kv.2 with | .lit n => n | .key s => p.lookupSize s)

/-- Sum of the values of a resolved size dictionary. -/
def sumSizes (l : List (String × Nat)) : Nat :=
  l.foldl (fun acc kv => acc + kv.2) 0

/-- `generate_image_begin_addresses`: slot i begins at
`bootloader_size + i * max_image_size`. -/
def generate_image_begin_addresses (p : Platform) : List Nat :=
  (List.range p.number_of_images).map fun i => p.bootloader_size + i * p.max_image_size

/-- `generate_size_of_metadata`: total width of one per-image record. -/
def generate_size_of_metadata (p : Platform) : Nat :=
  sumSizes (resolveSizes p IMAGE_METADATA_SIZES_TEMPLATE)

/-- One loop of `get_offset_of`: walk an ordered size dictionary
accumulating widths; report the accumulated offset at the requested key. -/
def scanOffset (prop : String) : Nat → List (String × Nat) → Option Nat
  | _, [] => none
  | off, kv :: rest => if kv.1 = prop then some off else scanOffset prop (off + kv.2) rest

/-- `get_offset_of`: walk the global size dictionary from
`metadata_label_address`, then the per-image size dictionary; return 0 when
the property occurs in neither. -/
def get_offset_of (prop : String) (p : Platform)
    (metadata_sizes global_metadata_sizes : List (String × Nat)) : Nat :=
  match scanOffset prop p.metadata_label_address global_metadata_sizes with
  | some off => off
  | none =>
    match scanOffset prop (p.metadata_label_address + sumSizes global_metadata_sizes)
        metadata_sizes with
    | some off => off
    | none => 0

/-- `generate_config` restricted to its pure part: the layout dictionary
computed from a fully populated platform description. -/
def compute_layout (p : Platform) : LayoutConfig :=
  let metadata_sizes := resolveSizes p IMAGE_METADATA_SIZES_TEMPLATE
  let global_sizes := resolveSizes p GLOBAL_METADATA_SIZE_TEMPLATE
  { name := p.name
    image_begin_addresses := generate_image_begin_addresses p
    size_of_metadata := sumSizes metadata_sizes
    hmac_key_offset := get_offset_of "hmacKey1" p metadata_sizes global_sizes
    first_image_metadata_offset := get_offset_of "imageMetadata" p metadata_sizes global_sizes
    first_crc_offset := get_offset_of "crc" p metadata_sizes global_sizes
    first_length_offset := get_offset_of "length" p metadata_sizes global_sizes
    first_completion_status_offset :=
      get_offset_of "completionStatus" p metadata_sizes global_sizes
    first_hmac_offset := get_offset_of "hmacSignature" p metadata_sizes global_sizes
    bootloader_size := p.bootloader_size
    max_image_size := p.max_image_size
    byteorder := p.byteorder }

/-- Example platform used for concrete checks. -/
def samplePlatform : Platform :=
  { name := "sample"
    number_of_images := 2
    bootloader_size := 0x1000
    max_image_size := 0x8000
    metadata_label_address := 0x20000
    pointer_size := 4
    size_t_size := 4
    hmac_key_size := 32
    hmac_signature_size := 32
    byteorder := .little }

example : (compute_layout samplePlatform).image_begin_addresses = [0x1000, 0x9000] := by decide
example : (compute_layout samplePlatform).size_of_metadata = 60 := by decide
example : (compute_layout samplePlatform).hmac_key_offset = 0x20000 + 12 := by decide
example : (compute_layout samplePlatform).first_image_metadata_offset = 0x20000 + 108 := by decide
example : (compute_layout samplePlatform).first_crc_offset = 0x20000 + 112 := by decide
example : (compute_layout samplePlatform).first_length_offset = 0x20000 + 128 := by decide
example : (compute_layout samplePlatform).first_completion_status_offset = 0x20000 + 132 := by decide
example : (compute_layout samplePlatform).first_hmac_offset = 0x20000 + 136 := by decide

/-- Base address of the first per-image metadata record: the metadata label
address plus the widths of all global fields. -/
def metaBase (p : Platform) : Nat :=
  p.metadata_label_address + 4 + 2 * p.size_t_size + 3 * p.hmac_key_size

/-- Stride between consecutive per-image metadata records. -/
def stride (p : Platform) : Nat :=
  24 + p.pointer_size + p.hmac_signature_size

lemma size_of_metadata_reduce (p : Platform) :
    (compute_layout p).size_of_metadata =
      0 + 4 + 4 + 4 + 4 + p.pointer_size + 4 + 2 + 2 + p.hmac_signature_size := rfl

lemma size_of_metadata_eq (p : Platform) :
    (compute_layout p).size_of_metadata = stride p := by
  rw [size_of_metadata_reduce, stride]; omega

lemma hmac_key_offset_reduce (p : Platform) :
    (compute_layout p).hmac_key_offset =
      p.metadata_label_address + 4 + p.size_t_size + p.size_t_size := rfl

lemma first_image_metadata_offset_reduce (p : Platform) :
    (compute_layout p).first_image_metadata_offset =
      p.metadata_label_address + 4 + p.size_t_size + p.size_t_size +
        p.hmac_key_size + p.hmac_key_size + p.hmac_key_size := rfl

lemma first_crc_offset_reduce (p : Platform) :
    (compute_layout p).first_crc_offset =
      p.metadata_label_address +
        (0 + 4 + p.size_t_size + p.size_t_size +
          p.hmac_key_size + p.hmac_key_size + p.hmac_key_size + 0) + 4 := rfl

lemma first_length_offset_reduce (p : Platform) :
    (compute_layout p).first_length_offset =
      p.metadata_label_address +
        (0 + 4 + p.size_t_size + p.size_t_size +
          p.hmac_key_size + p.hmac_key_size + p.hmac_key_size + 0) +
        4 + 4 + 4 + 4 + p.pointer_size := rfl

lemma first_completion_status_offset_reduce (p : Platform) :
    (compute_layout p).first_completion_status_offset =
      p.metadata_label_address +
        (0 + 4 + p.size_t_size + p.size_t_size +
          p.hmac_key_size + p.hmac_key_size + p.hmac_key_size + 0) +
        4 + 4 + 4 + 4 + p.pointer_size + 4 := rfl

lemma first_hmac_offset_reduce (p : Platform) :
    (compute_layout p).first_hmac_offset =
      p.metadata_label_address +
        (0 + 4 + p.size_t_size + p.size_t_size +
          p.hmac_key_size + p.hmac_key_size + p.hmac_key_size + 0) +
        4 + 4 + 4 + 4 + p.pointer_size + 4 + 2 + 2 := rfl

lemma first_crc_offset_eq (p : Platform) :
    (compute_layout p).first_crc_offset = metaBase p + 4 := by
  rw [first_crc_offset_reduce, metaBase]; omega

lemma first_length_offset_eq (p : Platform) :
    (compute_layout p).first_length_offset = metaBase p + 16 + p.pointer_size := by
  rw [first_length_offset_reduce, metaBase]; omega

lemma first_completion_status_offset_eq (p : Platform) :
    (compute_layout p).first_completion_status_offset = metaBase p + 20 + p.pointer_size := by
  rw [first_completion_status_offset_reduce, metaBase]; omega

lemma first_hmac_offset_eq (p : Platform) :
    (compute_layout p).first_hmac_offset = metaBase p + 24 + p.pointer_size := by
  rw [first_hmac_offset_reduce, metaBase]; omega

lemma byteorder_eq (p : Platform) : (compute_layout p).byteorder = p.byteorder := rfl

/-- Rendering of a byte-order value in the persisted artifact. -/
def byteOrderName : ByteOrder → String
  | .little => "little"
  | .big => "big"

/-- Persisted form of a layout config: the key/value lines written by
`save_config` via `yaml.dump` (keys in sorted order, as `yaml.dump` emits). -/
def serializeConfig (c : LayoutConfig) : List (String × String) :=
  [("bootloader_size", Nat.repr c.bootloader_size),
   ("byteorder", byteOrderName c.byteorder),
   ("first_completion_status_offset", Nat.repr c.first_completion_status_offset),
   ("first_crc_offset", Nat.repr c.first_crc_offset),
   ("first_hmac_offset", Nat.repr c.first_hmac_offset),
   ("first_image_metadata_offset", Nat.repr c.first_image_metadata_offset),
   ("first_length_offset", Nat.repr c.first_length_offset),
   ("hmac_key_offset", Nat.repr c.hmac_key_offset),
   ("image_begin_addresses",
     String.intercalate ", " (c.image_begin_addresses.map Nat.repr)),
   ("max_image_size", Nat.repr c.max_image_size),
   ("name", c.name),
   ("size_of_metadata", Nat.repr c.size_of_metadata)]

/-- C1: the layout calculator produces `image_begin_addresses` of length
`number_of_images` with entry i equal to `bootloader_size + i * max_image_size`;
in particular for bootloader_size=0x1000, max_image_size=0x8000, N=2 the
addresses are [0x1000, 0x9000]. -/
theorem c1_image_begin_addresses (p : Platform) :
    (compute_layout p).image_begin_addresses.length = p.number_of_images ∧
    (∀ i, (h : i < (compute_layout p).image_begin_addresses.length) →
      (compute_layout p).image_begin_addresses.get ⟨i, h⟩ =
        p.bootloader_size + i * p.max_image_size) ∧
    (p.bootloader_size = 0x1000 → p.max_image_size = 0x8000 → p.number_of_images = 2 →
      (compute_layout p).image_begin_addresses = [0x1000, 0x9000]) := by
  refine ⟨by simp [compute_layout, generate_image_begin_addresses], ?_, ?_⟩
  · intro i h
    simp [compute_layout, generate_image_begin_addresses]
  · intro h1 h2 h3
    simp [compute_layout, generate_image_begin_addresses, h1, h2, h3, List.range_succ]

theorem c1_image_begin_addresses_witness :
    (compute_layout samplePlatform).image_begin_addresses.length =
        samplePlatform.number_of_images ∧
      (compute_layout samplePlatform).image_begin_addresses.get ⟨1, by decide⟩ =
        samplePlatform.bootloader_size + 1 * samplePlatform.max_image_size ∧
      (compute_layout samplePlatform).image_begin_addresses = [0x1000, 0x9000] :=
  ⟨(c1_image_begin_addresses samplePlatform).1,
   (c1_image_begin_addresses samplePlatform).2.1 1 (by decide),
   (c1_image_begin_addresses samplePlatform).2.2 (by decide) (by decide) (by decide)⟩

/-- C2: each populated offset equals `metadata_label_address` plus the sum of
the widths of all fields preceding the requested field, walking the global
field order (globalBootCounter 4, preferredImage size_t_size, currentImage
size_t_size, three HMAC keys of hmac_key_size each, zero-width sentinel) and
then the per-image field order (version 4, crc 4, bootcounter 4,
lastSuccessStatus 4, imageBegin pointer_size, length 4, completionStatus 2,
protectionStatus 2, hmacSignature hmac_signature_size). -/
theorem c2_offsets (p : Platform) :
    (compute_layout p).hmac_key_offset =
      p.metadata_label_address + (4 + p.size_t_size + p.size_t_size) ∧
    (compute_layout p).first_image_metadata_offset =
      p.metadata_label_address + (4 + p.size_t_size + p.size_t_size +
        p.hmac_key_size + p.hmac_key_size + p.hmac_key_size) ∧
    (compute_layout p).first_crc_offset =
      p.metadata_label_address + (4 + p.size_t_size + p.size_t_size +
        p.hmac_key_size + p.hmac_key_size + p.hmac_key_size + 4) ∧
    (compute_layout p).first_length_offset =
      p.metadata_label_address + (4 + p.size_t_size + p.size_t_size +
        p.hmac_key_size + p.hmac_key_size + p.hmac_key_size +
        4 + 4 + 4 + 4 + p.pointer_size) ∧
    (compute_layout p).first_completion_status_offset =
      p.metadata_label_address + (4 + p.size_t_size + p.size_t_size +
        p.hmac_key_size + p.hmac_key_size + p.hmac_key_size +
        4 + 4 + 4 + 4 + p.pointer_size + 4) ∧
    (compute_layout p).first_hmac_offset =
      p.metadata_label_address + (4 + p.size_t_size + p.size_t_size +
        p.hmac_key_size + p.hmac_key_size + p.hmac_key_size +
        4 + 4 + 4 + 4 + p.pointer_size + 4 + 2 + 2) := by
  refine ⟨?_, ?_, ?_, ?_, ?_, ?_⟩
  · rw [hmac_key_offset_reduce]; omega
  · rw [first_image_metadata_offset_reduce]; omega
  · rw [first_crc_offset_reduce]; omega
  · rw [first_length_offset_reduce]; omega
  · rw [first_completion_status_offset_reduce]; omega
  · rw [first_hmac_offset_reduce]; omega

/-- C3: `size_of_metadata` is the sum of the nine per-image field widths,
4+4+4+4+pointer_size+4+2+2+hmac_signature_size; in particular 60 when
pointer_size = 4 and hmac_signature_size = 32. -/
theorem c3_size_of_metadata (p : Platform) :
    (compute_layout p).size_of_metadata =
      4 + 4 + 4 + 4 + p.pointer_size + 4 + 2 + 2 + p.hmac_signature_size ∧
    (p.pointer_size = 4 → p.hmac_signature_size = 32 →
      (compute_layout p).size_of_metadata = 60) := by
  constructor
  · rw [size_of_metadata_reduce]
  · intro h1 h2; rw [size_of_metadata_reduce]; omega

theorem c3_size_of_metadata_witness :
    (compute_layout samplePlatform).size_of_metadata = 60 :=
  (c3_size_of_metadata samplePlatform).2 (by decide) (by decide)

/-- C7: layout generation is deterministic; the same unchanged platform
description yields an identical persisted layout artifact. -/
theorem c7_deterministic (p q : Platform) (h : p = q) :
    serializeConfig (compute_layout p) = serializeConfig (compute_layout q) := by
  rw [h]

theorem c7_deterministic_witness :
    serializeConfig (compute_layout samplePlatform) =
      serializeConfig (compute_layout samplePlatform) :=
  c7_deterministic samplePlatform samplePlatform rfl

lemma scanOffset_none_of_not_mem (prop : String) :
    ∀ (off : Nat) (l : List (String × Nat)), prop ∉ l.map Prod.fst →
      scanOffset prop off l = none := by
  intro off l
  induction l generalizing off with
  | nil => intro _; rfl
  | cons kv rest ih =>
    intro h
    simp only [List.map_cons, List.mem_cons, not_or] at h
    obtain ⟨hne, hrest⟩ := h
    rw [scanOffset, if_neg (fun e => hne e.symm)]
    exact ih (off + kv.2) hrest

lemma resolveSizes_keys (p : Platform) (t : List (String × SizeSpec)) :
    (resolveSizes p t).map Prod.fst = t.map Prod.fst := by
  simp [resolveSizes]

/-- C9: a property name occurring in neither the global nor the per-image
field order makes `get_offset_of` return 0 instead of raising an error. -/
theorem c9_unknown_prop_offset_zero (prop : String) (p : Platform)
    (h1 : prop ∉ GLOBAL_METADATA_SIZE_TEMPLATE.map Prod.fst)
    (h2 : prop ∉ IMAGE_METADATA_SIZES_TEMPLATE.map Prod.fst) :
    get_offset_of prop p (resolveSizes p IMAGE_METADATA_SIZES_TEMPLATE)
      (resolveSizes p GLOBAL_METADATA_SIZE_TEMPLATE) = 0 := by
  rw [get_offset_of,
    scanOffset_none_of_not_mem prop _ _ (by rw [resolveSizes_keys]; exact h1),
    scanOffset_none_of_not_mem prop _ _ (by rw [resolveSizes_keys]; exact h2)]

theorem c9_unknown_prop_offset_zero_witness :
    "hmacKeyl" ∉ GLOBAL_METADATA_SIZE_TEMPLATE.map Prod.fst ∧
    "hmacKeyl" ∉ IMAGE_METADATA_SIZES_TEMPLATE.map Prod.fst ∧
    get_offset_of "hmacKeyl" samplePlatform
      (resolveSizes samplePlatform IMAGE_METADATA_SIZES_TEMPLATE)
      (resolveSizes samplePlatform GLOBAL_METADATA_SIZE_TEMPLATE) = 0 :=
  ⟨by decide, by decide,
   c9_unknown_prop_offset_zero "hmacKeyl" samplePlatform (by decide) (by decide)⟩

/-- Platform description document in which any field may be absent
(a yaml mapping accessed with `platform[key]`, raising on a missing key). -/
structure PlatformDoc where
  name : Option String
  number_of_images : Option Nat
  bootloader_size : Option Nat
  max_image_size : Option Nat
  metadata_label_address : Option Nat
  pointer_size : Option Nat
  size_t_size : Option Nat
  hmac_key_size : Option Nat
  hmac_signature_size : Option Nat
  byteorder : Option ByteOrder
deriving DecidableEq, Repr

/-- Error raised by the layout calculator on a missing platform field. -/
inductive ConfigurationError
  | missingField
deriving DecidableEq, Repr

/-- Access a platform field, raising `ConfigurationError` if absent. -/
def req {α : Type} : Option α → Except ConfigurationError α
  | some a => .ok a
  | none => .error .missingField

/-- `generate_config` on a document with possibly missing fields: every
required field is demanded (in source access order) and the layout is
computed from the result. -/
def generate_config (d : PlatformDoc) : Except ConfigurationError LayoutConfig := do
  let name ← req d.name
  let number_of_images ← req d.number_of_images
  let bootloader_size ← req d.bootloader_size
  let max_image_size ← req d.max_image_size
  let pointer_size ← req d.pointer_size
  let hmac_signature_size ← req d.hmac_signature_size
  let size_t_size ← req d.size_t_size
  let hmac_key_size ← req d.hmac_key_size
  let metadata_label_address ← req d.metadata_label_address
  let byteorder ← req d.byteorder
  pure (compute_layout
    { name := name
      number_of_images := number_of_images
      bootloader_size := bootloader_size
      max_image_size := max_image_size
      metadata_label_address := metadata_label_address
      pointer_size := pointer_size
      size_t_size := size_t_size
      hmac_key_size := hmac_key_size
      hmac_signature_size := hmac_signature_size
      byteorder := byteorder })

/-- C8: the layout calculator fails with ConfigurationError exactly when some
required platform field is absent, and is total when all are present. -/
theorem c8_missing_fields (d : PlatformDoc) :
    ((generate_config d).isOk ↔
      d.name.isSome ∧ d.number_of_images.isSome ∧ d.bootloader_size.isSome ∧
      d.max_image_size.isSome ∧ d.metadata_label_address.isSome ∧
      d.pointer_size.isSome ∧ d.size_t_size.isSome ∧ d.hmac_key_size.isSome ∧
      d.hmac_signature_size.isSome ∧ d.byteorder.isSome) ∧
    (¬(d.name.isSome ∧ d.number_of_images.isSome ∧ d.bootloader_size.isSome ∧
      d.max_image_size.isSome ∧ d.metadata_label_address.isSome ∧
      d.pointer_size.isSome ∧ d.size_t_size.isSome ∧ d.hmac_key_size.isSome ∧
      d.hmac_signature_size.isSome ∧ d.byteorder.isSome) →
      generate_config d = .error .missingField) := by
  obtain ⟨f1, f2, f3, f4, f5, f6, f7, f8, f9, f10⟩ := d
  cases f1 <;> cases f2 <;> cases f3 <;> cases f4 <;> cases f5 <;>
    cases f6 <;> cases f7 <;> cases f8 <;> cases f9 <;> cases f10 <;>
    simp [generate_config, req, Except.isOk, Except.toBool, bind, Except.bind, pure,
      Except.pure]

/-- Little-endian bytes of a value, least significant first, fixed width. -/
def leBytes : Nat → Nat → List Nat
  | 0, _ => []
  | n + 1, v => v % 256 :: leBytes n (v / 256)

/-- Python `int.to_bytes(n, byteorder)`: fails (OverflowError) unless
`0 ≤ v < 256^n`; otherwise produces exactly n bytes in the given order. -/
def toBytes (v : Int) (n : Nat) (bo : ByteOrder) : Option (List Nat) :=
  if 0 ≤ v ∧ v < (256 : Int) ^ n then
    some (match bo with
      | .little => leBytes n v.toNat
      | .big => (leBytes n v.toNat).reverse)
  else none

/-- Value of a little-endian byte list. -/
def decodeLE : List Nat → Nat
  | [] => 0
  | b :: bs => b + 256 * decodeLE bs

/-- Python `int.from_bytes(bs, byteorder)` on byte values. -/
def fromBytes (bs : List Nat) (bo : ByteOrder) : Nat :=
  match bo with
  | .little => decodeLE bs
  | .big => decodeLE bs.reverse

/-- The output file as a byte-addressed memory. -/
def Mem : Type := Nat → Nat

/-- Write a byte list at an offset (`file.seek(off); file.write(bs)`). -/
def writeBytes (m : Mem) (off : Nat) (bs : List Nat) : Mem := fun a =>
  if off ≤ a ∧ a - off < bs.length then bs.getD (a - off) 0 else m a

/-- Read n bytes starting at an offset. -/
def readBytes (m : Mem) (off n : Nat) : List Nat :=
  (List.range n).map fun j => m (off + j)

lemma leBytes_length (n : Nat) : ∀ v, (leBytes n v).length = n := by
  induction n with
  | zero => intro v; rfl
  | succ k ih => intro v; simp [leBytes, ih]

lemma toBytes_length (v : Int) (n : Nat) (bo : ByteOrder) (bs : List Nat)
    (h : toBytes v n bo = some bs) : bs.length = n := by
  unfold toBytes at h
  split at h
  · cases bo <;> simp only [Option.some_inj] at h <;> rw [← h] <;>
      simp [leBytes_length]
  · exact absurd h (by simp)

lemma toBytes_isSome_iff (v : Int) (n : Nat) (bo : ByteOrder) :
    (toBytes v n bo).isSome ↔ 0 ≤ v ∧ v < (256 : Int) ^ n := by
  unfold toBytes
  split <;> simp_all

lemma mod_pow_split (v k : Nat) :
    v % 256 ^ (k + 1) = v % 256 + 256 * (v / 256 % 256 ^ k) := by
  have hp : 0 < 256 ^ k := pow_pos (by norm_num) k
  have hx : v / 256 % 256 ^ k < 256 ^ k := Nat.mod_lt _ hp
  have hr : v % 256 < 256 := Nat.mod_lt _ (by norm_num)
  have hv : v = 256 ^ (k + 1) * (v / 256 / 256 ^ k) +
      (v % 256 + 256 * (v / 256 % 256 ^ k)) := by
    have hd1 : 256 * (v / 256) + v % 256 = v := Nat.div_add_mod v 256
    have hd2 : 256 ^ k * (v / 256 / 256 ^ k) + v / 256 % 256 ^ k = v / 256 :=
      Nat.div_add_mod (v / 256) (256 ^ k)
    rw [pow_succ]
    calc v = 256 * (v / 256) + v % 256 := hd1.symm
      _ = 256 * (256 ^ k * (v / 256 / 256 ^ k) + v / 256 % 256 ^ k) + v % 256 := by
            rw [hd2]
      _ = 256 ^ k * 256 * (v / 256 / 256 ^ k) +
            (v % 256 + 256 * (v / 256 % 256 ^ k)) := by ring
  have hw : v % 256 + 256 * (v / 256 % 256 ^ k) < 256 ^ (k + 1) := by
    rw [pow_succ]
    omega
  conv_lhs => rw [hv]
  rw [Nat.mul_add_mod, Nat.mod_eq_of_lt hw]

lemma decodeLE_leBytes (n : Nat) : ∀ v, decodeLE (leBytes n v) = v % 256 ^ n := by
  induction n with
  | zero => intro v; simp [leBytes, decodeLE, Nat.mod_one]
  | succ k ih =>
    intro v
    rw [leBytes, decodeLE, ih (v / 256)]
    exact (mod_pow_split v k).symm

lemma fromBytes_toBytes (v : Int) (n : Nat) (bo : ByteOrder) (bs : List Nat)
    (h : toBytes v n bo = some bs) : (fromBytes bs bo : Int) = v := by
  unfold toBytes at h
  split at h
  case isTrue hc =>
    have hlt : v.toNat < 256 ^ n := by
      have h2 : v < ((256 ^ n : Nat) : Int) := by push_cast; exact hc.2
      omega
    cases bo <;> simp only [Option.some_inj] at h <;> subst h <;>
      simp [fromBytes, List.reverse_reverse, decodeLE_leBytes,
        Nat.mod_eq_of_lt hlt, Int.toNat_of_nonneg hc.1]
  · exact absurd h (by simp)

lemma writeBytes_outside (m : Mem) (off : Nat) (bs : List Nat) (a : Nat)
    (h : a < off ∨ off + bs.length ≤ a) : writeBytes m off bs a = m a := by
  rw [writeBytes, if_neg]
  omega

lemma readBytes_length (m : Mem) (off n : Nat) : (readBytes m off n).length = n := by
  simp [readBytes]

lemma readBytes_congr (m1 m2 : Mem) (off n : Nat)
    (h : ∀ a, off ≤ a → a < off + n → m1 a = m2 a) :
    readBytes m1 off n = readBytes m2 off n := by
  unfold readBytes
  apply List.map_congr_left
  intro j hj
  rw [List.mem_range] at hj
  exact h (off + j) (Nat.le_add_right _ _) (by omega)

lemma readBytes_writeBytes_disjoint (m : Mem) (off n off2 : Nat) (bs : List Nat)
    (h : off + n ≤ off2 ∨ off2 + bs.length ≤ off) :
    readBytes (writeBytes m off2 bs) off n = readBytes m off n := by
  apply readBytes_congr
  intro a ha1 ha2
  exact writeBytes_outside m off2 bs a (by omega)

lemma readBytes_writeBytes_self (m : Mem) (off : Nat) (bs : List Nat) :
    readBytes (writeBytes m off bs) off bs.length = bs := by
  apply List.ext_getElem
  · simp [readBytes]
  · intro i h1 h2
    simp only [readBytes, List.getElem_map, List.getElem_range]
    rw [writeBytes, if_pos ⟨Nat.le_add_right _ _, by omega⟩,
      Nat.add_sub_cancel_left, List.getD_eq_getElem]

/-- `ImageMetadata` of `initial_metadata.py`: the per-image record held in
memory before patching the binary. -/
structure ImageMetadata where
  crc : Int
  completion_status : Int
  hmac_signature : List Nat
  length : Int
  file_name : String
deriving DecidableEq, Repr

/-- `ImageMetadata.__init__`: crc 0, completion_status 1, no signature,
length 0, empty file name. -/
def ImageMetadata.init : ImageMetadata :=
  { crc := 0
    completion_status := 1
    hmac_signature := []
    length := 0
    file_name := "" }

/-- `GlobalImageMetadata`: key file content plus the per-image records in
slot order. -/
structure GlobalImageMetadata where
  hmac_key_file : List Nat
  images : List ImageMetadata
deriving DecidableEq, Repr

/-- `write_crc`: encode the CRC as 4 bytes in the configured byte order at
`first_crc_offset + size_of_metadata * index`. -/
def write_crc (output : Mem) (crc : Int) (index : Nat) (config : LayoutConfig) :
    Option Mem :=
  (toBytes crc 4 config.byteorder).map fun bs =>
    writeBytes output (config.first_crc_offset + config.size_of_metadata * index) bs

/-- `write_length`: encode the length as 4 bytes at
`first_length_offset + size_of_metadata * index`. -/
def write_length (output : Mem) (length : Int) (index : Nat) (config : LayoutConfig) :
    Option Mem :=
  (toBytes length 4 config.byteorder).map fun bs =>
    writeBytes output (config.first_length_offset + config.size_of_metadata * index) bs

/-- `write_completion_status`: encode the status as 2 bytes at
`first_completion_status_offset + size_of_metadata * index`. -/
def write_completion_status (output : Mem) (completion_status : Int) (index : Nat)
    (config : LayoutConfig) : Option Mem :=
  (toBytes completion_status 2 config.byteorder).map fun bs =>
    writeBytes output
      (config.first_completion_status_offset + config.size_of_metadata * index) bs

/-- `write_hmac_signature`: raw signature bytes at
`first_hmac_offset + size_of_metadata * index`. -/
def write_hmac_signature (output : Mem) (hmac_signature : List Nat) (index : Nat)
    (config : LayoutConfig) : Mem :=
  writeBytes output (config.first_hmac_offset + config.size_of_metadata * index)
    hmac_signature

/-- `write_hmac_key`: raw key file content at `hmac_key_offset`. -/
def write_hmac_key (output : Mem) (key : List Nat) (config : LayoutConfig) : Mem :=
  writeBytes output config.hmac_key_offset key

/-- Body of the `fix_metadata` loop for one image: CRC, length, completion
status, then HMAC signature. -/
def writeImageRecord (output : Mem) (image : ImageMetadata) (index : Nat)
    (config : LayoutConfig) : Option Mem :=
  (write_crc output image.crc index config).bind fun m1 =>
    (write_length m1 image.length index config).bind fun m2 =>
      (write_completion_status m2 image.completion_status index config).map fun m3 =>
        write_hmac_signature m3 image.hmac_signature index config

/-- The `fix_metadata` loop over all images starting at a given index. -/
def writeImageRecords (output : Mem) (config : LayoutConfig) :
    List ImageMetadata → Nat → Option Mem
  | [], _ => some output
  | image :: rest, index =>
    (writeImageRecord output image index config).bind fun m =>
      writeImageRecords m config rest (index + 1)

/-- `fix_metadata`: write the shared HMAC key, then every per-image record. -/
def fix_metadata (output : Mem) (global_metadata : GlobalImageMetadata)
    (config : LayoutConfig) : Option Mem :=
  writeImageRecords (write_hmac_key output global_metadata.hmac_key_file config)
    config global_metadata.images 0

/-- C10: the 4-byte writers succeed exactly for 0 ≤ v < 2^32 and the 2-byte
writer exactly for 0 ≤ v < 2^16; a successful write changes exactly the
encoded byte range (4 resp. 2 bytes) and nothing else. -/
theorem c10_write_ranges (m : Mem) (v : Int) (index : Nat) (config : LayoutConfig) :
    ((write_crc m v index config).isSome ↔ 0 ≤ v ∧ v < 2 ^ 32) ∧
    ((write_length m v index config).isSome ↔ 0 ≤ v ∧ v < 2 ^ 32) ∧
    ((write_completion_status m v index config).isSome ↔ 0 ≤ v ∧ v < 2 ^ 16) ∧
    (∀ m2, write_crc m v index config = some m2 →
      ∃ bs, bs.length = 4 ∧
        m2 = writeBytes m (config.first_crc_offset + config.size_of_metadata * index) bs) ∧
    (∀ m2, write_length m v index config = some m2 →
      ∃ bs, bs.length = 4 ∧
        m2 = writeBytes m (config.first_length_offset + config.size_of_metadata * index) bs) ∧
    (∀ m2, write_completion_status m v index config = some m2 →
      ∃ bs, bs.length = 2 ∧
        m2 = writeBytes m
          (config.first_completion_status_offset + config.size_of_metadata * index) bs) := by
  have h32 : ((256 : Int) ^ (4 : Nat)) = 2 ^ 32 := by norm_num
  have h16 : ((256 : Int) ^ (2 : Nat)) = 2 ^ 16 := by norm_num
  have hmap : ∀ {α β : Type} (f : α → β) (o : Option α), (o.map f).isSome = o.isSome := by
    intro α β f o; cases o <;> rfl
  refine ⟨?_, ?_, ?_, ?_, ?_, ?_⟩
  · rw [write_crc, hmap, toBytes_isSome_iff, h32]
  · rw [write_length, hmap, toBytes_isSome_iff, h32]
  · rw [write_completion_status, hmap, toBytes_isSome_iff, h16]
  · intro m2 h
    rw [write_crc] at h
    obtain ⟨bs, hbs, hm⟩ := Option.map_eq_some.mp h
    exact ⟨bs, toBytes_length v 4 config.byteorder bs hbs, hm.symm⟩
  · intro m2 h
    rw [write_length] at h
    obtain ⟨bs, hbs, hm⟩ := Option.map_eq_some.mp h
    exact ⟨bs, toBytes_length v 4 config.byteorder bs hbs, hm.symm⟩
  · intro m2 h
    rw [write_completion_status] at h
    obtain ⟨bs, hbs, hm⟩ := Option.map_eq_some.mp h
    exact ⟨bs, toBytes_length v 2 config.byteorder bs hbs, hm.symm⟩

/-- All-zero output file, used for concrete checks. -/
def memZero : Mem := fun _ => 0

theorem c10_write_ranges_witness :
    ((write_crc memZero 7 0 (compute_layout samplePlatform)).isSome ↔
      0 ≤ (7 : Int) ∧ (7 : Int) < 2 ^ 32) ∧
    ∃ bs, bs.length = 4 ∧
      writeBytes memZero ((compute_layout samplePlatform).first_crc_offset +
          (compute_layout samplePlatform).size_of_metadata * 0) [7, 0, 0, 0] =
        writeBytes memZero ((compute_layout samplePlatform).first_crc_offset +
          (compute_layout samplePlatform).size_of_metadata * 0) bs :=
  ⟨(c10_write_ranges memZero 7 0 (compute_layout samplePlatform)).1,
   (c10_write_ranges memZero 7 0 (compute_layout samplePlatform)).2.2.2.1
     (writeBytes memZero ((compute_layout samplePlatform).first_crc_offset +
       (compute_layout samplePlatform).size_of_metadata * 0) [7, 0, 0, 0]) rfl⟩

lemma writeImageRecord_eq (config : LayoutConfig) (image : ImageMetadata) (index : Nat)
    (m m2 : Mem) (h : writeImageRecord m image index config = some m2) :
    ∃ bs1 bs2 bs3,
      toBytes image.crc 4 config.byteorder = some bs1 ∧
      toBytes image.length 4 config.byteorder = some bs2 ∧
      toBytes image.completion_status 2 config.byteorder = some bs3 ∧
      m2 = writeBytes (writeBytes (writeBytes (writeBytes m
              (config.first_crc_offset + config.size_of_metadata * index) bs1)
            (config.first_length_offset + config.size_of_metadata * index) bs2)
          (config.first_completion_status_offset + config.size_of_metadata * index) bs3)
        (config.first_hmac_offset + config.size_of_metadata * index)
        image.hmac_signature := by
  simp only [writeImageRecord, write_crc, write_length, write_completion_status,
    write_hmac_signature, Option.bind_eq_some, Option.map_eq_some'] at h
  obtain ⟨m1, ⟨bs1, e1, hb1⟩, mB, ⟨bs2, e2, hb2⟩, mC, ⟨bs3, e3, hb3⟩, hfin⟩ := h
  refine ⟨bs1, bs2, bs3, e1, e2, e3, ?_⟩
  rw [hb1, hb2, hb3, hfin]

lemma writeImageRecord_isSome (config : LayoutConfig) (image : ImageMetadata)
    (index : Nat) (m : Mem)
    (h1 : 0 ≤ image.crc ∧ image.crc < 2 ^ 32)
    (h2 : 0 ≤ image.length ∧ image.length < 2 ^ 32)
    (h3 : 0 ≤ image.completion_status ∧ image.completion_status < 2 ^ 16) :
    ∃ m2, writeImageRecord m image index config = some m2 := by
  have e32 : ((256 : Int) ^ (4 : Nat)) = 2 ^ 32 := by norm_num
  have e16 : ((256 : Int) ^ (2 : Nat)) = 2 ^ 16 := by norm_num
  obtain ⟨bs1, e1⟩ := Option.isSome_iff_exists.mp
    ((toBytes_isSome_iff image.crc 4 config.byteorder).mpr
      ⟨h1.1, by rw [e32]; exact h1.2⟩)
  obtain ⟨bs2, e2⟩ := Option.isSome_iff_exists.mp
    ((toBytes_isSome_iff image.length 4 config.byteorder).mpr
      ⟨h2.1, by rw [e32]; exact h2.2⟩)
  obtain ⟨bs3, e3⟩ := Option.isSome_iff_exists.mp
    ((toBytes_isSome_iff image.completion_status 2 config.byteorder).mpr
      ⟨h3.1, by rw [e16]; exact h3.2⟩)
  refine ⟨write_hmac_signature (writeBytes (writeBytes (writeBytes m
      (config.first_crc_offset + config.size_of_metadata * index) bs1)
      (config.first_length_offset + config.size_of_metadata * index) bs2)
      (config.first_completion_status_offset + config.size_of_metadata * index) bs3)
      image.hmac_signature index config, ?_⟩
  simp [writeImageRecord, write_crc, write_length, write_completion_status, e1, e2, e3]

lemma writeImageRecord_frame (config : LayoutConfig) (image : ImageMetadata)
    (index : Nat) (m m2 : Mem) (a : Nat)
    (h : writeImageRecord m image index config = some m2)
    (h1 : a < config.first_crc_offset + config.size_of_metadata * index)
    (h2 : a < config.first_length_offset + config.size_of_metadata * index)
    (h3 : a < config.first_completion_status_offset + config.size_of_metadata * index)
    (h4 : a < config.first_hmac_offset + config.size_of_metadata * index) :
    m2 a = m a := by
  obtain ⟨bs1, bs2, bs3, e1, e2, e3, rfl⟩ := writeImageRecord_eq _ _ _ _ _ h
  rw [writeBytes_outside _ _ _ _ (Or.inl h4), writeBytes_outside _ _ _ _ (Or.inl h3),
    writeBytes_outside _ _ _ _ (Or.inl h2), writeBytes_outside _ _ _ _ (Or.inl h1)]

lemma writeImageRecords_frame (p : Platform) (images : List ImageMetadata) :
    ∀ (k : Nat) (m m2 : Mem),
      writeImageRecords m (compute_layout p) images k = some m2 →
      ∀ a, a < metaBase p + stride p * k → m2 a = m a := by
  induction images with
  | nil =>
    intro k m m2 h a _
    simp only [writeImageRecords, Option.some_inj] at h
    rw [← h]
  | cons image rest ih =>
    intro k m m2 h a ha
    rw [writeImageRecords] at h
    obtain ⟨m1, hrec, hrest⟩ := Option.bind_eq_some.mp h
    have step1 : m2 a = m1 a := by
      apply ih (k + 1) m1 m2 hrest a
      have hms : stride p * (k + 1) = stride p * k + stride p := Nat.mul_succ _ _
      omega
    have step2 : m1 a = m a := by
      apply writeImageRecord_frame _ _ _ _ _ _ hrec
      · rw [first_crc_offset_eq, size_of_metadata_eq]; omega
      · rw [first_length_offset_eq, size_of_metadata_eq]; omega
      · rw [first_completion_status_offset_eq, size_of_metadata_eq]; omega
      · rw [first_hmac_offset_eq, size_of_metadata_eq]; omega
    rw [step1, step2]

/-- Value bounds and signature width under which a per-image record embeds
loss-free: crc and length fit 4 bytes, completion status fits 2 bytes, the
signature has the configured width. -/
def goodImage (p : Platform) (image : ImageMetadata) : Prop :=
  0 ≤ image.crc ∧ image.crc < 2 ^ 32 ∧
  0 ≤ image.length ∧ image.length < 2 ^ 32 ∧
  0 ≤ image.completion_status ∧ image.completion_status < 2 ^ 16 ∧
  image.hmac_signature.length = p.hmac_signature_size

instance (p : Platform) (image : ImageMetadata) : Decidable (goodImage p image) := by
  unfold goodImage; infer_instance

/-- Reading the CRC, length, completion-status and HMAC byte ranges of slot
`index` back from the output decodes to exactly the record's values. -/
def recordReadback (p : Platform) (m2 : Mem) (index : Nat)
    (image : ImageMetadata) : Prop :=
  (fromBytes (readBytes m2 ((compute_layout p).first_crc_offset +
      (compute_layout p).size_of_metadata * index) 4)
    (compute_layout p).byteorder : Int) = image.crc ∧
  (fromBytes (readBytes m2 ((compute_layout p).first_length_offset +
      (compute_layout p).size_of_metadata * index) 4)
    (compute_layout p).byteorder : Int) = image.length ∧
  (fromBytes (readBytes m2 ((compute_layout p).first_completion_status_offset +
      (compute_layout p).size_of_metadata * index) 2)
    (compute_layout p).byteorder : Int) = image.completion_status ∧
  readBytes m2 ((compute_layout p).first_hmac_offset +
      (compute_layout p).size_of_metadata * index) image.hmac_signature.length =
    image.hmac_signature

lemma writeImageRecord_readback (p : Platform) (image : ImageMetadata) (index : Nat)
    (m m2 : Mem)
    (h : writeImageRecord m image index (compute_layout p) = some m2) :
    recordReadback p m2 index image := by
  obtain ⟨bs1, bs2, bs3, e1, e2, e3, rfl⟩ := writeImageRecord_eq _ _ _ _ _ h
  have l1 := toBytes_length _ _ _ _ e1
  have l2 := toBytes_length _ _ _ _ e2
  have l3 := toBytes_length _ _ _ _ e3
  have hco := first_crc_offset_eq p
  have hlo := first_length_offset_eq p
  have hcso := first_completion_status_offset_eq p
  have hho := first_hmac_offset_eq p
  have hsz := size_of_metadata_eq p
  refine ⟨?_, ?_, ?_, ?_⟩
  · rw [readBytes_writeBytes_disjoint _ _ _ _ _
        (Or.inl (by rw [hco, hho, hsz]; omega)),
      readBytes_writeBytes_disjoint _ _ _ _ _
        (Or.inl (by rw [hco, hcso, hsz]; omega)),
      readBytes_writeBytes_disjoint _ _ _ _ _
        (Or.inl (by rw [hco, hlo, hsz]; omega)),
      ← l1, readBytes_writeBytes_self]
    exact fromBytes_toBytes _ _ _ _ e1
  · rw [readBytes_writeBytes_disjoint _ _ _ _ _
        (Or.inl (by rw [hlo, hho, hsz]; omega)),
      readBytes_writeBytes_disjoint _ _ _ _ _
        (Or.inl (by rw [hlo, hcso, hsz]; omega)),
      ← l2, readBytes_writeBytes_self]
    exact fromBytes_toBytes _ _ _ _ e2
  · rw [readBytes_writeBytes_disjoint _ _ _ _ _
        (Or.inl (by rw [hcso, hho, hsz]; omega)),
      ← l3, readBytes_writeBytes_self]
    exact fromBytes_toBytes _ _ _ _ e3
  · rw [readBytes_writeBytes_self]

lemma writeImageRecords_readback (p : Platform) (images : List ImageMetadata) :
    ∀ (k : Nat) (m : Mem), (∀ image ∈ images, goodImage p image) →
      ∃ m2, writeImageRecords m (compute_layout p) images k = some m2 ∧
        ∀ j (hj : j < images.length),
          recordReadback p m2 (k + j) (images.get ⟨j, hj⟩) := by
  induction images with
  | nil =>
    intro k m _
    exact ⟨m, rfl, fun j hj => absurd hj (by simp)⟩
  | cons image rest ih =>
    intro k m hall
    have hgood := hall image (List.mem_cons_self _ _)
    obtain ⟨m1, hm1⟩ := writeImageRecord_isSome (compute_layout p) image k m
      ⟨hgood.1, hgood.2.1⟩ ⟨hgood.2.2.1, hgood.2.2.2.1⟩
      ⟨hgood.2.2.2.2.1, hgood.2.2.2.2.2.1⟩
    obtain ⟨m2, hm2, hreads⟩ :=
      ih (k + 1) m1 (fun img hi => hall img (List.mem_cons_of_mem _ hi))
    refine ⟨m2, ?_, ?_⟩
    · rw [writeImageRecords, hm1, Option.some_bind]
      exact hm2
    · intro j hj
      cases j with
      | zero =>
        have hsig := hgood.2.2.2.2.2.2
        have hframe : ∀ a, a < metaBase p + stride p * (k + 1) → m2 a = m1 a :=
          fun a ha => writeImageRecords_frame p rest (k + 1) m1 m2 hm2 a ha
        have hcongr : ∀ off n, off + n ≤ metaBase p + stride p * (k + 1) →
            readBytes m2 off n = readBytes m1 off n := by
          intro off n hb
          exact readBytes_congr m2 m1 off n (fun a ha1 ha2 => hframe a (by omega))
        have hrb := writeImageRecord_readback p image k m m1 hm1
        have hms : stride p * (k + 1) = stride p * k + stride p := Nat.mul_succ _ _
        have hS : stride p = 24 + p.pointer_size + p.hmac_signature_size := rfl
        have hco := first_crc_offset_eq p
        have hlo := first_length_offset_eq p
        have hcso := first_completion_status_offset_eq p
        have hho := first_hmac_offset_eq p
        have hsz := size_of_metadata_eq p
        obtain ⟨r1, r2, r3, r4⟩ := hrb
        rw [show ((image :: rest).get ⟨0, hj⟩) = image from rfl, Nat.add_zero]
        rw [hco, hsz] at r1
        rw [hlo, hsz] at r2
        rw [hcso, hsz] at r3
        rw [hho, hsz] at r4
        refine ⟨?_, ?_, ?_, ?_⟩
        · rw [hco, hsz, hcongr (metaBase p + 4 + stride p * k) 4 (by omega)]
          exact r1
        · rw [hlo, hsz,
            hcongr (metaBase p + 16 + p.pointer_size + stride p * k) 4 (by omega)]
          exact r2
        · rw [hcso, hsz,
            hcongr (metaBase p + 20 + p.pointer_size + stride p * k) 2 (by omega)]
          exact r3
        · rw [hho, hsz,
            hcongr (metaBase p + 24 + p.pointer_size + stride p * k)
              image.hmac_signature.length (by omega)]
          exact r4
      | succ j2 =>
        have hj2 : j2 < rest.length := by simpa using hj
        have hidx : k + (j2 + 1) = (k + 1) + j2 := by omega
        have hr := hreads j2 hj2
        rw [hidx]
        exact hr

/-- C4: `fix_metadata` writes each record's CRC (4 bytes), length (4 bytes),
completion status (2 bytes) and raw HMAC signature at
`first_F_offset + index * size_of_metadata` in the configured byte order, so
reading those byte ranges back from the output decodes to exactly the
extracted values. -/
theorem c4_metadata_roundtrip (p : Platform) (output : Mem)
    (global_metadata : GlobalImageMetadata)
    (hall : ∀ image ∈ global_metadata.images, goodImage p image) :
    ∃ m2, fix_metadata output global_metadata (compute_layout p) = some m2 ∧
      ∀ i (hi : i < global_metadata.images.length),
        recordReadback p m2 i (global_metadata.images.get ⟨i, hi⟩) := by
  obtain ⟨m2, hm2, hreads⟩ := writeImageRecords_readback p global_metadata.images 0
    (write_hmac_key output global_metadata.hmac_key_file (compute_layout p)) hall
  refine ⟨m2, hm2, fun i hi => ?_⟩
  have hr := hreads i hi
  rwa [Nat.zero_add] at hr

/-- Concrete per-image record for the witness. -/
def sampleImage : ImageMetadata :=
  { crc := 0x11223344
    completion_status := 1
    hmac_signature := List.replicate 32 7
    length := 10
    file_name := "image.bin" }

/-- Concrete global metadata for the witness. -/
def sampleGlobal : GlobalImageMetadata :=
  { hmac_key_file := List.replicate 32 1
    images := [sampleImage] }

theorem c4_metadata_roundtrip_witness :
    (∀ image ∈ sampleGlobal.images, goodImage samplePlatform image) ∧
    ∃ m2, fix_metadata memZero sampleGlobal (compute_layout samplePlatform) = some m2 ∧
      ∀ i (hi : i < sampleGlobal.images.length),
        recordReadback samplePlatform m2 i (sampleGlobal.images.get ⟨i, hi⟩) :=
  ⟨by decide, c4_metadata_roundtrip samplePlatform memZero sampleGlobal (by decide)⟩

/-- Error taxonomy of the composer: oversize bootloader/image
(SizeExceededError), slot index beyond the address table (IndexError from
`image_begin_addresses[index]`), or an encoding overflow (OverflowError from
`int.to_bytes`). -/
inductive BuildError
  | sizeExceeded
  | indexError
  | overflow
deriving DecidableEq, Repr

/-- `create_output_binary`: reject a bootloader larger than
`bootloader_size`, else copy its bytes to offset 0 of the output. -/
def create_output_binary (output : Mem) (bootloader : List Nat)
    (config : LayoutConfig) : Except BuildError Mem :=
  if bootloader.length > config.bootloader_size then .error .sizeExceeded
  else .ok (writeBytes output 0 bootloader)

/-- Body of the `append_images_to_binary` loop for one image: reject an
image larger than `max_image_size`, else copy it to its slot address. -/
def append_image (output : Mem) (config : LayoutConfig) (image : List Nat)
    (index : Nat) : Except BuildError Mem :=
  if image.length > config.max_image_size then .error .sizeExceeded
  else
    match config.image_begin_addresses[index]? with
    | some offset => .ok (writeBytes output offset image)
    | none => .error .indexError

/-- `append_images_to_binary`: place every image at its slot address in
order. -/
def append_images_to_binary (output : Mem) (config : LayoutConfig) :
    List (List Nat) → Nat → Except BuildError Mem
  | [], _ => .ok output
  | image :: rest, index =>
    (append_image output config image index).bind fun m =>
      append_images_to_binary m config rest (index + 1)

/-- Lift the option-valued metadata patching into the composer's error
monad. -/
def liftFix : Option Mem → Except BuildError Mem
  | some m => .ok m
  | none => .error .overflow

/-- The composition run of `initial_metadata.py.__main__`: bootloader
placement, image placement, then metadata patching. -/
def compose (output : Mem) (bootloader : List Nat) (images : List (List Nat))
    (global_metadata : GlobalImageMetadata) (config : LayoutConfig) :
    Except BuildError Mem :=
  (create_output_binary output bootloader config).bind fun m1 =>
    (append_images_to_binary m1 config images 0).bind fun m2 =>
      liftFix (fix_metadata m2 global_metadata config)

lemma append_images_oversized (config : LayoutConfig) :
    ∀ (images : List (List Nat)) (index : Nat) (output : Mem),
      index + images.length ≤ config.image_begin_addresses.length →
      (∃ image ∈ images, image.length > config.max_image_size) →
      append_images_to_binary output config images index = .error .sizeExceeded := by
  intro images
  induction images with
  | nil => intro index output _ hex; simp at hex
  | cons image rest ih =>
    intro index output hlen hex
    rw [append_images_to_binary]
    by_cases hbig : image.length > config.max_image_size
    · rw [append_image, if_pos hbig]
      rfl
    · obtain ⟨img, hmem, hover⟩ := hex
      rcases List.mem_cons.mp hmem with heq | hmem2
      · exact absurd (heq ▸ hover) hbig
      · have hidx : index < config.image_begin_addresses.length := by
          simp only [List.length_cons] at hlen; omega
        rw [append_image, if_neg hbig, List.getElem?_eq_getElem hidx]
        exact ih (index + 1) _
          (by simp only [List.length_cons] at hlen; omega) ⟨img, hmem2, hover⟩

/-- C5: a bootloader of exactly `bootloader_size` bytes succeeds and one of
`bootloader_size + 1` bytes fails with SizeExceededError; an image of exactly
`max_image_size` bytes succeeds in any valid slot and one of
`max_image_size + 1` bytes fails with SizeExceededError; in both failure
cases the whole composition run aborts with that error. -/
theorem c5_size_boundaries (output : Mem) (bootloader image : List Nat)
    (images : List (List Nat)) (global_metadata : GlobalImageMetadata)
    (config : LayoutConfig) (index : Nat) :
    (bootloader.length = config.bootloader_size →
      create_output_binary output bootloader config =
        .ok (writeBytes output 0 bootloader)) ∧
    (bootloader.length = config.bootloader_size + 1 →
      create_output_binary output bootloader config = .error .sizeExceeded) ∧
    (image.length = config.max_image_size →
      ∀ h : index < config.image_begin_addresses.length,
      append_image output config image index =
        .ok (writeBytes output (config.image_begin_addresses.get ⟨index, h⟩) image)) ∧
    (image.length = config.max_image_size + 1 →
      append_image output config image index = .error .sizeExceeded) ∧
    (bootloader.length = config.bootloader_size + 1 →
      compose output bootloader images global_metadata config = .error .sizeExceeded) ∧
    (bootloader.length ≤ config.bootloader_size →
      images.length ≤ config.image_begin_addresses.length →
      (∃ img ∈ images, img.length > config.max_image_size) →
      compose output bootloader images global_metadata config =
        .error .sizeExceeded) := by
  refine ⟨?_, ?_, ?_, ?_, ?_, ?_⟩
  · intro he
    rw [create_output_binary, if_neg (by omega)]
  · intro he
    rw [create_output_binary, if_pos (by omega)]
  · intro he h
    rw [append_image, if_neg (by omega), List.getElem?_eq_getElem h]
    rfl
  · intro he
    rw [append_image, if_pos (by omega)]
  · intro he
    rw [compose, create_output_binary, if_pos (by omega)]
    rfl
  · intro hboot hlen hex
    rw [compose, create_output_binary, if_neg (by omega)]
    show (append_images_to_binary (writeBytes output 0 bootloader) config
        images 0).bind _ = _
    rw [append_images_oversized config images 0 (writeBytes output 0 bootloader)
      (by omega) hex]
    rfl

/-- Concrete bootloader of exactly `bootloader_size` bytes. -/
def sampleBoot : List Nat := List.replicate 0x1000 0xAB

/-- Concrete bootloader one byte too large. -/
def sampleBootBig : List Nat := List.replicate 0x1001 0xAB

/-- Concrete image of exactly `max_image_size` bytes. -/
def sampleImageBytes : List Nat := List.replicate 0x8000 1

/-- Concrete image one byte too large. -/
def sampleImageBig : List Nat := List.replicate 0x8001 1

lemma sampleBoot_length : sampleBoot.length = 0x1000 := by
  rw [sampleBoot, List.length_replicate]

lemma sampleBootBig_length : sampleBootBig.length = 0x1001 := by
  rw [sampleBootBig, List.length_replicate]

lemma sampleImageBytes_length : sampleImageBytes.length = 0x8000 := by
  rw [sampleImageBytes, List.length_replicate]

lemma sampleImageBig_length : sampleImageBig.length = 0x8001 := by
  rw [sampleImageBig, List.length_replicate]

theorem c5_size_boundaries_witness :
    create_output_binary memZero sampleBoot (compute_layout samplePlatform) =
      .ok (writeBytes memZero 0 sampleBoot) ∧
    create_output_binary memZero sampleBootBig (compute_layout samplePlatform) =
      .error .sizeExceeded ∧
    append_image memZero (compute_layout samplePlatform) sampleImageBytes 0 =
      .ok (writeBytes memZero
        ((compute_layout samplePlatform).image_begin_addresses.get ⟨0, by decide⟩)
        sampleImageBytes) ∧
    append_image memZero (compute_layout samplePlatform) sampleImageBig 0 =
      .error .sizeExceeded ∧
    compose memZero sampleBootBig [] sampleGlobal (compute_layout samplePlatform) =
      .error .sizeExceeded ∧
    compose memZero sampleBoot [sampleImageBig] sampleGlobal
      (compute_layout samplePlatform) = .error .sizeExceeded := by
  have hbs : (compute_layout samplePlatform).bootloader_size = 0x1000 := rfl
  have hms : (compute_layout samplePlatform).max_image_size = 0x8000 := rfl
  have c1 := (c5_size_boundaries memZero sampleBoot sampleImageBytes []
    sampleGlobal (compute_layout samplePlatform) 0).1
    (by rw [sampleBoot_length, hbs])
  have c2 := (c5_size_boundaries memZero sampleBootBig sampleImageBytes []
    sampleGlobal (compute_layout samplePlatform) 0).2.1
    (by rw [sampleBootBig_length, hbs])
  have c3 := (c5_size_boundaries memZero sampleBoot sampleImageBytes []
    sampleGlobal (compute_layout samplePlatform) 0).2.2.1
    (by rw [sampleImageBytes_length, hms]) (by decide)
  have c4 := (c5_size_boundaries memZero sampleBoot sampleImageBig []
    sampleGlobal (compute_layout samplePlatform) 0).2.2.2.1
    (by rw [sampleImageBig_length, hms])
  have c5 := (c5_size_boundaries memZero sampleBootBig sampleImageBytes []
    sampleGlobal (compute_layout samplePlatform) 0).2.2.2.2.1
    (by rw [sampleBootBig_length, hbs])
  have c6 := (c5_size_boundaries memZero sampleBoot sampleImageBytes
    [sampleImageBig] sampleGlobal (compute_layout samplePlatform) 0).2.2.2.2.2
    (by rw [sampleBoot_length, hbs])
    (by rw [show ((compute_layout samplePlatform).image_begin_addresses.length) = 2
        from rfl, List.length_singleton]; omega)
    ⟨sampleImageBig, List.mem_singleton_self _,
      by rw [sampleImageBig_length, hms]; omega⟩
  exact ⟨c1, c2, c3, c4, c5, c6⟩

/-- Truncate to 32 bits. -/
def w32 (x : Nat) : Nat := x % 4294967296

/-- One bit step of the reflected CRC-32C division. -/
def crc32cStep (crc : Nat) : Nat :=
  if crc % 2 = 1 then (crc >>> 1) ^^^ 0x82F63B78 else crc >>> 1

/-- Iterate the CRC bit step. -/
def crc32cSteps : Nat → Nat → Nat
  | 0, crc => crc
  | n + 1, crc => crc32cSteps n (crc32cStep crc)

/-- Fold one message byte into the CRC state. -/
def crc32cByte (crc b : Nat) : Nat := crc32cSteps 8 (crc ^^^ (b % 256))

/-- Modelled from the spec: CRC-32C, the Castagnoli-polynomial 32-bit cyclic
redundancy check computed by the external `crc32c` library
(reflected polynomial 0x82F63B78, initial value and final xor 0xFFFFFFFF). -/
def crc32c (data : List Nat) : Nat :=
  (data.foldl crc32cByte 0xFFFFFFFF) ^^^ 0xFFFFFFFF

set_option maxRecDepth 100000 in
example : crc32c [0x31, 0x32, 0x33, 0x34, 0x35, 0x36, 0x37, 0x38, 0x39] = 0xE3069283 := by
  decide

/-- Rotate a 32-bit word right. -/
def rotr32 (n x : Nat) : Nat := w32 ((x >>> n) ||| (x <<< (32 - n)))

/-- SHA-256 compression state. -/
structure Sha256State where
  a : Nat
  b : Nat
  c : Nat
  d : Nat
  e : Nat
  f : Nat
  g : Nat
  h : Nat

/-- SHA-256 initial hash value. -/
def shaInit : Sha256State :=
  { a := 0x6a09e667, b := 0xbb67ae85, c := 0x3c6ef372, d := 0xa54ff53a
    e := 0x510e527f, f := 0x9b05688c, g := 0x1f83d9ab, h := 0x5be0cd19 }

/-- SHA-256 round constants (FIPS 180-4 section 4.2.2, in decimal). -/
def shaK : List Nat :=
  [1116352408, 1899447441, 3049323471, 3921009573, 961987163,
   1508970993, 2453635748, 2870763221, 3624381080, 310598401,
   607225278, 1426881987, 1925078388, 2162078206, 2614888103,
   3248222580, 3835390401, 4022224774, 264347078, 604807628,
   770255983, 1249150122, 1555081692, 1996064986, 2554220882,
   2821834349, 2952996808, 3210313671, 3336571891, 3584528711,
   113926993, 338241895, 666307205, 773529912, 1294757372,
   1396182291, 1695183700, 1986661051, 2177026350, 2456956037,
   2730485921, 2820302411, 3259730800, 3345764771, 3516065817,
   3600352804, 4094571909, 275423344, 430227734, 506948616,
   659060556, 883997877, 958139571, 1322822218, 1537002063,
   1747873779, 1955562222, 2024104815, 2227730452, 2361852424,
   2428436474, 2756734187, 3204031479, 3329325298]

/-- Message-schedule sigma functions. -/
def smallSigma0 (x : Nat) : Nat := (rotr32 7 x) ^^^ (rotr32 18 x) ^^^ (x >>> 3)

/-- Second message-schedule sigma function. -/
def smallSigma1 (x : Nat) : Nat := (rotr32 17 x) ^^^ (rotr32 19 x) ^^^ (x >>> 10)

/-- Compression big sigma functions. -/
def bigSigma0 (x : Nat) : Nat := (rotr32 2 x) ^^^ (rotr32 13 x) ^^^ (rotr32 22 x)

/-- Second compression big sigma function. -/
def bigSigma1 (x : Nat) : Nat := (rotr32 6 x) ^^^ (rotr32 11 x) ^^^ (rotr32 25 x)

/-- Extend the 16 block words to the full 64-word schedule. -/
def extendSchedule : Nat → List Nat → List Nat
  | 0, w => w
  | n + 1, w =>
    extendSchedule n (w ++ [w32 (smallSigma1 (w.getD (w.length - 2) 0) +
      w.getD (w.length - 7) 0 + smallSigma0 (w.getD (w.length - 15) 0) +
      w.getD (w.length - 16) 0)])

/-- One SHA-256 round on the precombined value K[i] + W[i]. -/
def shaRound (s : Sha256State) (kw : Nat) : Sha256State :=
  let ch := (s.e &&& s.f) ^^^ ((s.e ^^^ 0xFFFFFFFF) &&& s.g)
  let maj := (s.a &&& s.b) ^^^ (s.a &&& s.c) ^^^ (s.b &&& s.c)
  let t1 := w32 (s.h + bigSigma1 s.e + ch + kw)
  let t2 := w32 (bigSigma0 s.a + maj)
  { a := w32 (t1 + t2), b := s.a, c := s.b, d := s.c
    e := w32 (s.d + t1), f := s.e, g := s.f, h := s.g }

/-- Compress one 16-word block into the state. -/
def shaCompressBlock (st : Sha256State) (block : List Nat) : Sha256State :=
  let w := extendSchedule 48 block
  let kw := (shaK.zip w).map fun q => w32 (q.1 + q.2)
  let s2 := kw.foldl shaRound st
  { a := w32 (st.a + s2.a), b := w32 (st.b + s2.b), c := w32 (st.c + s2.c)
    d := w32 (st.d + s2.d), e := w32 (st.e + s2.e), f := w32 (st.f + s2.f)
    g := w32 (st.g + s2.g), h := w32 (st.h + s2.h) }

/-- Big-endian bytes of a value, fixed width. -/
def beBytes (n v : Nat) : List Nat := (leBytes n v).reverse

/-- SHA-256 padding: 0x80, zeros to 56 mod 64, then the 64-bit bit length. -/
def sha256Pad (msg : List Nat) : List Nat :=
  msg ++ [128] ++ List.replicate ((120 - (msg.length + 1) % 64) % 64) 0 ++
    beBytes 8 (msg.length * 8)

/-- Split a byte list into 64-byte chunks (fuel-bounded). -/
def chunks64 : Nat → List Nat → List (List Nat)
  | 0, _ => []
  | fuel + 1, l => if l.isEmpty then [] else l.take 64 :: chunks64 fuel (l.drop 64)

/-- Combine bytes into big-endian 32-bit words. -/
def beWords : List Nat → List Nat
  | b0 :: b1 :: b2 :: b3 :: rest =>
    (((b0 * 256 + b1) * 256 + b2) * 256 + b3) :: beWords rest
  | _ => []

/-- Serialize the final state as the 32-byte digest. -/
def sha256Digest (st : Sha256State) : List Nat :=
  beBytes 4 st.a ++ beBytes 4 st.b ++ beBytes 4 st.c ++ beBytes 4 st.d ++
    beBytes 4 st.e ++ beBytes 4 st.f ++ beBytes 4 st.g ++ beBytes 4 st.h

/-- Modelled from the spec: SHA-256 of a byte list, as computed by the
external `hashlib` library. -/
def sha256 (msg : List Nat) : List Nat :=
  sha256Digest ((chunks64 (sha256Pad msg).length (sha256Pad msg)).foldl
    (fun st b => shaCompressBlock st (beWords b)) shaInit)

/-- Modelled from the spec: HMAC-SHA-256 with the full digest as output, as
computed by the external `hmac` library (block size 64; a longer key is
hashed first, then zero-padded). -/
def hmacSha256 (key msg : List Nat) : List Nat :=
  let k0 := if key.length > 64 then sha256 key else key
  let kp := k0 ++ List.replicate (64 - k0.length) 0
  sha256 ((kp.map fun b => b ^^^ 0x5c) ++
    sha256 ((kp.map fun b => b ^^^ 0x36) ++ msg))

set_option maxRecDepth 1000000 in
example : sha256 [] =
    [0xe3, 0xb0, 0xc4, 0x42, 0x98, 0xfc, 0x1c, 0x14, 0x9a, 0xfb, 0xf4, 0xc8,
     0x99, 0x6f, 0xb9, 0x24, 0x27, 0xae, 0x41, 0xe4, 0x64, 0x9b, 0x93, 0x4c,
     0xa4, 0x95, 0x99, 0x1b, 0x78, 0x52, 0xb8, 0x55] := by decide

set_option maxRecDepth 1000000 in
example : hmacSha256 [0x6b, 0x65, 0x79]
    ([0x54, 0x68, 0x65, 0x20, 0x71, 0x75, 0x69, 0x63, 0x6b, 0x20, 0x62, 0x72,
      0x6f, 0x77, 0x6e, 0x20, 0x66, 0x6f, 0x78, 0x20, 0x6a, 0x75, 0x6d, 0x70,
      0x73, 0x20, 0x6f, 0x76, 0x65, 0x72, 0x20, 0x74, 0x68, 0x65, 0x20, 0x6c,
      0x61, 0x7a, 0x79, 0x20, 0x64, 0x6f, 0x67]) =
    [0xf7, 0xbc, 0x83, 0xf4, 0x30, 0x53, 0x84, 0x24, 0xb1, 0x32, 0x98, 0xe6,
     0xaa, 0x6f, 0xb1, 0x43, 0xef, 0x4d, 0x59, 0xa1, 0x49, 0x46, 0x17, 0x59,
     0x97, 0x47, 0x9d, 0xbc, 0x2d, 0x1a, 0x3c, 0xd8] := by decide

lemma beBytes_length (n v : Nat) : (beBytes n v).length = n := by
  rw [beBytes, List.length_reverse, leBytes_length]

lemma sha256_length (msg : List Nat) : (sha256 msg).length = 32 := by
  rw [sha256, sha256Digest]
  simp [beBytes_length]

lemma hmacSha256_length (key msg : List Nat) : (hmacSha256 key msg).length = 32 := by
  rw [hmacSha256]
  exact sha256_length _

/-- `extract_image_metadata`: build one per-image record from the image and
key file contents and append it to the global metadata (the key file is
remembered for the later shared-key write). -/
def extract_image_metadata (global_metadata : GlobalImageMetadata)
    (image_content key_content : List Nat) (image_file : String) :
    GlobalImageMetadata :=
  { hmac_key_file := key_content
    images := global_metadata.images ++
      [{ ImageMetadata.init with
          crc := (crc32c image_content : Int)
          length := (image_content.length : Int)
          hmac_signature := hmacSha256 key_content image_content
          file_name := image_file }] }

/-- C6: the extractor appends a record whose crc is the CRC-32C checksum of
the full image content, whose length is the image size in bytes, whose
hmac_signature is the full 32-byte HMAC-SHA-256 digest of the image content
keyed by the key-file content, and whose completion_status is the
constant 1. -/
theorem c6_extract_image_metadata (global_metadata : GlobalImageMetadata)
    (image_content key_content : List Nat) (image_file : String) :
    ∃ rec,
      (extract_image_metadata global_metadata image_content key_content
          image_file).images = global_metadata.images ++ [rec] ∧
      rec.crc = (crc32c image_content : Int) ∧
      rec.length = (image_content.length : Int) ∧
      rec.hmac_signature = hmacSha256 key_content image_content ∧
      rec.hmac_signature.length = 32 ∧
      rec.completion_status = 1 ∧
      (extract_image_metadata global_metadata image_content key_content
          image_file).hmac_key_file = key_content :=
  ⟨_, rfl, rfl, rfl, rfl, hmacSha256_length _ _, rfl, rfl⟩

end InitialMetadata

